import Mathlib

/-!
# Verification of the aleo-pool-server coordination engine

Shallow embedding of `src/server.rs` (the Stratum-style mining pool server):
the server state (connection/prover maps, pool state, cached block template,
nonce set), the message handlers (`ProverConnected`, `ProverAuthenticated`,
`ProverDisconnected`, `NewBlockTemplate`, `ProverSubmit`), and theorems about
the share-validation pipeline, the vardiff bookkeeping and the map invariants.

Modelling conventions:
* `u64` values are `ℕ` with explicit `% 2 ^ 64` where overflow matters;
  `u64::MAX` is the constant `U64MAX`.
* `f64` values are modelled as `ℚ`; the Rust `as u64` cast is `f64ToU64`
  (truncation toward zero, saturating at the bounds).
* Socket addresses, public addresses, channel senders, nonces and proofs are
  opaque and modelled as `ℕ`.
* The `Speedometer` type comes from an external crate; a speedometer reading
  (`speed()` after the `event`) enters each handler as an oracle input.
* The PoSW verifier, `to_proof_difficulty` and the block-hash CRH are external
  pure functions (out of scope per the spec); they are parameters of the
  submit handler.
-/

namespace PoolServer

/-- Definition of `u64::MAX`. -/
def U64MAX : ℕ := 2 ^ 64 - 1

/-- Rust `as u64` cast applied to an `f64` (modelled as `ℚ`): truncation
toward zero, saturating at `0` below and at `u64::MAX` above. -/
def f64ToU64 (x : ℚ) : ℕ :=
  if x < 0 then 0 else min (x.num.toNat / x.den) U64MAX

/-- Hex digit character (lowercase), as produced by `hex::encode`. -/
def hexDigitChar (n : ℕ) : Char :=
  if n < 10 then Char.ofNat (48 + n) else Char.ofNat (87 + n)

/-- Hex encoding of one byte: two lowercase hex digits. -/
def hexByte (b : ℕ) : List Char :=
  [hexDigitChar (b / 16 % 16), hexDigitChar (b % 16)]

/-- Definition of `hex::encode` on a byte list. -/
def hexEncode (bs : List ℕ) : String :=
  String.mk (bs.map hexByte).flatten

/-- Little-endian byte decomposition of a `u32`, as in `u32::to_le_bytes`. -/
def u32ToLeBytes (n : ℕ) : List ℕ :=
  [n % 256, n / 256 % 256, n / 65536 % 256, n / 16777216 % 256]

/-- Stratum messages produced by the core (from `aleo_stratum::message`,
restricted to the constructors the server sends). An error response carries
the code and the message of `Error::with_custom_msg`. -/
inductive StratumMessage where
  | SetTarget (difficulty_target : ℕ)
  | Notify (job_id header_root hashed_leaf_0 hashed_leaf_1 hashed_leaf_2
      hashed_leaf_3 : String) (clean_jobs : Bool)
  | Response (id : ℕ) (result : Option Bool) (error : Option (ℕ × String))
deriving DecidableEq

/-- Messages sent to the accounting actor. -/
inductive AccountingMessage where
  | SetN (n : ℕ)
  | NewShare (address : String) (value : ℕ)
  | NewBlock (height : ℕ) (block_hash : ℕ) (reward : ℕ)
deriving DecidableEq

/-- Messages sent to the operator actor. -/
inductive OperatorMessage where
  | PoolBlock (nonce : ℕ) (proof : ℕ)
deriving DecidableEq

/-- Block header Merkle tree as exposed by the template: its root and its
hashed leaves, each a byte string (opaque crypto output, modelled as bytes). -/
structure BlockHeaderTree where
  root : List ℕ
  hashed_leaves : ℕ → List ℕ

/-- Block template as the server consumes it: height, network difficulty
target, previous block hash, coinbase reward value, and the derived header
tree (`to_header_tree` / `to_header_root` are pure functions of the template,
modelled as a field). -/
structure BlockTemplate where
  block_height : ℕ
  difficulty_target : ℕ
  previous_block_hash : ℕ
  coinbase_value : ℕ
  header_tree : BlockHeaderTree

/-- Per-prover mining state (`ProverState` in `server.rs`). The five
speedometers live in an external crate and are omitted; their readings enter
`add_share` as an oracle input. -/
structure ProverState where
  peer_addr : ℕ
  address : ℕ
  current_difficulty : ℕ
  next_difficulty : ℕ
deriving DecidableEq

/-- Definition of `ProverState::new`: difficulties start at 1. -/
def ProverState.new (peer_addr address : ℕ) : ProverState :=
  { peer_addr := peer_addr, address := address,
    current_difficulty := 1, next_difficulty := 1 }

/-- Definition of `ProverState::add_share`: feed `value` to the speedometers
(external) and recompute `next_difficulty = ((speed_2m * 20.0) as u64).max(1)`
where `speed_2m` is the 2-minute speedometer reading after the event. -/
def ProverState.add_share (s : ProverState) (value : ℕ) (speed_2m : ℚ) :
    ProverState :=
  { s with next_difficulty := max (f64ToU64 (speed_2m * 20)) 1 }

/-- Definition of `ProverState::next_difficulty` (the method): promote
`current_difficulty := next_difficulty` and return the promoted value.
Named `promote` because the field already carries the source name. -/
def ProverState.promote (s : ProverState) : ProverState × ℕ :=
  let s' := { s with current_difficulty := s.next_difficulty }
  (s', s'.current_difficulty)

/-- Pool-wide vardiff state (`PoolState` in `server.rs`); speedometers again
external. -/
structure PoolState where
  current_global_difficulty_modifier : ℚ
  next_global_difficulty_modifier : ℚ
deriving DecidableEq

/-- Definition of `PoolState::new`: both modifiers start at 1.0. -/
def PoolState.new : PoolState :=
  { current_global_difficulty_modifier := 1,
    next_global_difficulty_modifier := 1 }

/-- Definition of `PoolState::add_share`: feed `value` to the speedometers
(external) and recompute
`next_global_difficulty_modifier = (speed_1m / 10.0).max(1.0)`. -/
def PoolState.add_share (s : PoolState) (value : ℕ) (speed_1m : ℚ) :
    PoolState :=
  { s with next_global_difficulty_modifier := max (speed_1m / 10) 1 }

/-- Definition of `PoolState::next_global_difficulty_modifier` (the method):
promote `current := next` and return the promoted value. -/
def PoolState.promote (s : PoolState) : PoolState × ℚ :=
  let s' := { s with
    current_global_difficulty_modifier := s.next_global_difficulty_modifier }
  (s', s'.current_global_difficulty_modifier)

/-- Whole server state: the fields of `struct Server` that carry data
(channel handles are omitted; the outbound sender of a prover is the `ℕ`
stored in `authenticated_provers`). -/
structure ServerState where
  connected_provers : Finset ℕ
  authenticated_provers : ℕ → Option ℕ
  prover_states : ℕ → Option ProverState
  prover_address_connections : ℕ → Option (Finset ℕ)
  latest_block_height : ℕ
  latest_block_template : Option BlockTemplate
  latest_block_template_header_tree : Option BlockHeaderTree
  pool_state : PoolState
  nonce_seen : Finset ℕ

/-- Pointwise update of an optional map (the effect of a `HashMap`
insert/remove at one key). -/
def upd {α : Type} (m : ℕ → Option α) (k : ℕ) (v : Option α) :
    ℕ → Option α :=
  fun k' => if k' = k then v else m k'

/-- Initial server state, as built in `Server::init`. -/
def initServer : ServerState :=
  { connected_provers := ∅,
    authenticated_provers := fun _ => none,
    prover_states := fun _ => none,
    prover_address_connections := fun _ => none,
    latest_block_height := 0,
    latest_block_template := none,
    latest_block_template_header_tree := none,
    pool_state := PoolState.new,
    nonce_seen := ∅ }

/-- Definition of `Server::seen_nonce`: insert the nonce and report whether it
was already present (`!insert(nonce)`); returns the flag and the updated set. -/
def seen_nonce (nonce_seen : Finset ℕ) (nonce : ℕ) : Bool × Finset ℕ :=
  (decide (nonce ∈ nonce_seen), insert nonce nonce_seen)

/-- Construction of the `Notify` message from a job id and a header tree, as
both the `ProverAuthenticated` and the `NewBlockTemplate` handlers build it:
hex root, hex of the first four hashed leaves, `clean_jobs = true`. -/
def notifyOfTree (job_id : String) (tree : BlockHeaderTree) : StratumMessage :=
  StratumMessage.Notify job_id (hexEncode tree.root)
    (hexEncode (tree.hashed_leaves 0)) (hexEncode (tree.hashed_leaves 1))
    (hexEncode (tree.hashed_leaves 2)) (hexEncode (tree.hashed_leaves 3)) true

/-- Handler of `ServerMessage::ProverConnected`: record the peer in
`connected_provers` (the connection adapter is out of scope). -/
def process_ProverConnected (S : ServerState) (peer_addr : ℕ) : ServerState :=
  { S with connected_provers := insert peer_addr S.connected_provers }

/-- Result of the `ProverAuthenticated` handler: new state plus the messages
sent to the fresh prover, in order. -/
structure AuthResult where
  state : ServerState
  sent : List StratumMessage

/-- Handler of `ServerMessage::ProverAuthenticated`: insert into
`authenticated_provers` and `prover_states`, add the peer to
`prover_address_connections[address]` (creating the entry if needed), send
`SetTarget(u64::MAX)`, then — if a header tree is cached — the current
`Notify` whose job id is the hex of the little-endian latest block height. -/
def process_ProverAuthenticated (S : ServerState)
    (peer_addr address sender : ℕ) : AuthResult :=
  let auth' := upd S.authenticated_provers peer_addr (some sender)
  let states' := upd S.prover_states peer_addr
    (some (ProverState.new peer_addr address))
  let pac' :=
    match S.prover_address_connections address with
    | some conns =>
        upd S.prover_address_connections address (some (insert peer_addr conns))
    | none =>
        upd S.prover_address_connections address (some {peer_addr})
  let sent :=
    [StratumMessage.SetTarget U64MAX] ++
      (match S.latest_block_template_header_tree with
       | some tree =>
           [notifyOfTree (hexEncode (u32ToLeBytes S.latest_block_height)) tree]
       | none => [])
  { state :=
      { S with
        authenticated_provers := auth'
        prover_states := states'
        prover_address_connections := pac' },
    sent := sent }

/-- Handler of `ServerMessage::ProverDisconnected`: remove the peer from
`prover_states` (reading its claimed address), drop it from
`prover_address_connections[address]` — removing the address key when the set
becomes empty — then remove it from `connected_provers` and
`authenticated_provers`. -/
def process_ProverDisconnected (S : ServerState) (peer_addr : ℕ) :
    ServerState :=
  let pac' :=
    match S.prover_states peer_addr with
    | none => S.prover_address_connections
    | some st =>
        match S.prover_address_connections st.address with
        | none => S.prover_address_connections
        | some conns =>
            let conns' := conns.erase peer_addr
            if conns' = ∅ then
              upd S.prover_address_connections st.address none
            else
              upd S.prover_address_connections st.address (some conns')
  { S with
    prover_states := upd S.prover_states peer_addr none
    prover_address_connections := pac'
    connected_provers := S.connected_provers.erase peer_addr
    authenticated_provers := upd S.authenticated_provers peer_addr none }

/-- Share difficulty as computed in the submit path:
`(prover.current_difficulty() as f64 * current_global_difficulty_modifier) as u64`. -/
def share_difficulty (st : ProverState) (modifier : ℚ) : ℕ :=
  f64ToU64 ((st.current_difficulty : ℚ) * modifier)

/-- Scaled promoted difficulty as computed in the template fan-out:
`(prover_state.next_difficulty() as f64 * global_difficulty_modifier) as u64`
(the method has already promoted `current := next`). -/
def fanout_next_difficulty (st : ProverState) (modifier : ℚ) : ℕ :=
  f64ToU64 ((st.next_difficulty : ℚ) * modifier)

/-- Messages the `NewBlockTemplate` fan-out sends to one prover: a
`SetTarget(u64::MAX / next)` exactly when the scaled promoted difficulty
differs from the previously read `current_difficulty`, then the `Notify`. -/
def fanoutProverMessages (global_difficulty_modifier : ℚ)
    (notify : StratumMessage) (st : ProverState) : List StratumMessage :=
  let current_difficulty := st.current_difficulty
  let next_difficulty := fanout_next_difficulty st global_difficulty_modifier
  (if current_difficulty ≠ next_difficulty then
    [StratumMessage.SetTarget (U64MAX / next_difficulty)]
  else []) ++ [notify]

/-- Result of the `NewBlockTemplate` handler: new state, the accounting
messages, and — per peer — the Stratum messages sent to that prover (the
`HashMap` iteration order is immaterial, so messages are keyed by peer). -/
structure TemplateResult where
  state : ServerState
  accounting : List AccountingMessage
  prover_messages : ℕ → List StratumMessage

/-- Handler of `ServerMessage::NewBlockTemplate`: store height, template and
header tree; send `SetN(u64::MAX / difficulty_target * 5)` to accounting
(`u64` arithmetic, hence the `% 2 ^ 64`); promote the global difficulty
modifier; then for every authenticated prover with a state, promote its
difficulty and send `fanoutProverMessages` (provers whose state is missing
are skipped). -/
def process_NewBlockTemplate (S : ServerState) (block_template : BlockTemplate) :
    TemplateResult :=
  let tree := block_template.header_tree
  let pool' := S.pool_state.promote
  let global_difficulty_modifier := pool'.2
  let job_id := hexEncode (u32ToLeBytes block_template.block_height)
  let notify := notifyOfTree job_id tree
  let states' := fun p =>
    match S.authenticated_provers p, S.prover_states p with
    | some _, some st => some (st.promote).1
    | _, _ => S.prover_states p
  let msgs := fun p =>
    match S.authenticated_provers p, S.prover_states p with
    | some _, some st => fanoutProverMessages global_difficulty_modifier notify st
    | _, _ => []
  { state :=
      { S with
        latest_block_height := block_template.block_height
        latest_block_template := some block_template
        latest_block_template_header_tree := some tree
        pool_state := pool'.1
        prover_states := states' },
    accounting :=
      [AccountingMessage.SetN
        (U64MAX / block_template.difficulty_target * 5 % 2 ^ 64)],
    prover_messages := msgs }

/-- Result of the `ProverSubmit` handler: new state, the response sent to the
submitting prover (`none` on the silent drop), and the accounting/operator
messages, in send order. -/
structure SubmitResult where
  state : ServerState
  response : Option StratumMessage
  accounting : List AccountingMessage
  operator : List OperatorMessage

/-- Successful response `Response(id, Some(Bool(true)), None)`. -/
def okResponse (id : ℕ) : StratumMessage :=
  StratumMessage.Response id (some true) none

/-- Rejection response
`Response(id, None, Some(Error::with_custom_msg(code, msg)))`. -/
def errResponse (id code : ℕ) (msg : String) : StratumMessage :=
  StratumMessage.Response id none (some (code, msg))

/-- Handler of `ServerMessage::ProverSubmit` — the validation pipeline.
Parameters `posw` (the PoSW verifier, applied to block height, share target,
header root, nonce and proof), `to_proof_difficulty` and `block_hash_crh` are
the external pure crypto functions; `speed_2m` and `speed_1m` are the
speedometer readings the two `add_share` calls observe. The pipeline checks,
in order: outbound sender present (else silent drop), prover state known
(else 24), template cached (else 21), height current (else 21), nonce unseen
(else 22; the insert happens here), proof difficulty extractable (else 23),
`proof_difficulty ≤ u64::MAX / share_difficulty` (else 23), PoSW valid (else
26); on success it records the share, notifies accounting, replies
`Bool(true)`, and — when the network target is also met — notifies the
operator and accounting of the block. -/
def process_ProverSubmit
    (posw : ℕ → ℕ → List ℕ → ℕ → ℕ → Bool)
    (to_proof_difficulty : ℕ → Option ℕ)
    (block_hash_crh : ℕ → List ℕ → ℕ)
    (S : ServerState) (speed_2m speed_1m : ℚ)
    (id peer_addr block_height nonce proof : ℕ) : SubmitResult :=
  let latest_block_height := S.latest_block_height
  let current_global_difficulty_modifier :=
    S.pool_state.current_global_difficulty_modifier
  match S.authenticated_provers peer_addr with
  | none => { state := S, response := none, accounting := [], operator := [] }
  | some _ =>
    match S.prover_states peer_addr with
    | none =>
        { state := S, response := some (errResponse id 24 "Unknown prover"),
          accounting := [], operator := [] }
    | some prover_state =>
      match S.latest_block_template with
      | none =>
          { state := S,
            response := some (errResponse id 21 "No block template"),
            accounting := [], operator := [] }
      | some block_template =>
        if block_height ≠ latest_block_height then
          { state := S, response := some (errResponse id 21 "Stale proof"),
            accounting := [], operator := [] }
        else
          let seen := seen_nonce S.nonce_seen nonce
          let S1 := { S with nonce_seen := seen.2 }
          if seen.1 then
            { state := S1,
              response := some (errResponse id 22 "Duplicate nonce"),
              accounting := [], operator := [] }
          else
            let difficulty :=
              share_difficulty prover_state current_global_difficulty_modifier
            let difficulty_target := U64MAX / difficulty
            match to_proof_difficulty proof with
            | none =>
                { state := S1,
                  response := some (errResponse id 23 "No difficulty"),
                  accounting := [], operator := [] }
            | some proof_difficulty =>
              if proof_difficulty > difficulty_target then
                { state := S1,
                  response :=
                    some (errResponse id 23 "Difficulty target not met"),
                  accounting := [], operator := [] }
              else if ¬ posw block_height difficulty_target
                  block_template.header_tree.root nonce proof then
                { state := S1,
                  response := some (errResponse id 26 "Invalid proof"),
                  accounting := [], operator := [] }
              else
                let prover_state' :=
                  prover_state.add_share difficulty speed_2m
                let block_found :=
                  proof_difficulty ≤ block_template.difficulty_target
                { state :=
                    { S1 with
                      prover_states :=
                        upd S1.prover_states peer_addr (some prover_state')
                      pool_state :=
                        S1.pool_state.add_share difficulty speed_1m },
                  response := some (okResponse id),
                  accounting :=
                    [AccountingMessage.NewShare
                      (toString prover_state'.address) difficulty] ++
                    (if block_found then
                      [AccountingMessage.NewBlock block_height
                        (block_hash_crh block_template.previous_block_hash
                          block_template.header_tree.root)
                        block_template.coinbase_value]
                    else []),
                  operator :=
                    if block_found then
                      [OperatorMessage.PoolBlock nonce proof]
                    else [] }

/-- One transition of the server state: the effect of one message handler,
with the message payload and all external inputs (oracle speedometer
readings, crypto functions) arbitrary. `ServerMessage::Exit` does nothing
and is omitted. -/
inductive Step : ServerState → ServerState → Prop where
  | prover_connected (S : ServerState) (peer_addr : ℕ) :
      Step S (process_ProverConnected S peer_addr)
  | prover_authenticated (S : ServerState) (peer_addr address sender : ℕ) :
      Step S (process_ProverAuthenticated S peer_addr address sender).state
  | prover_disconnected (S : ServerState) (peer_addr : ℕ) :
      Step S (process_ProverDisconnected S peer_addr)
  | new_block_template (S : ServerState) (t : BlockTemplate) :
      Step S (process_NewBlockTemplate S t).state
  | prover_submit (S : ServerState)
      (posw : ℕ → ℕ → List ℕ → ℕ → ℕ → Bool)
      (to_proof_difficulty : ℕ → Option ℕ)
      (block_hash_crh : ℕ → List ℕ → ℕ)
      (speed_2m speed_1m : ℚ) (id peer_addr block_height nonce proof : ℕ) :
      Step S (process_ProverSubmit posw to_proof_difficulty block_hash_crh S
        speed_2m speed_1m id peer_addr block_height nonce proof).state

/-- States reachable from the initial server state by handler steps. -/
inductive Reachable : ServerState → Prop where
  | init : Reachable initServer
  | step {S S' : ServerState} : Reachable S → Step S S' → Reachable S'

/-- Guarded transition: like `Step`, but `ProverAuthenticated` is only
delivered for a peer that is not already authenticated (the connection
adapter authenticates each connection at most once). -/
inductive GStep : ServerState → ServerState → Prop where
  | prover_connected (S : ServerState) (peer_addr : ℕ) :
      GStep S (process_ProverConnected S peer_addr)
  | prover_authenticated (S : ServerState) (peer_addr address sender : ℕ)
      (fresh : S.authenticated_provers peer_addr = none) :
      GStep S (process_ProverAuthenticated S peer_addr address sender).state
  | prover_disconnected (S : ServerState) (peer_addr : ℕ) :
      GStep S (process_ProverDisconnected S peer_addr)
  | new_block_template (S : ServerState) (t : BlockTemplate) :
      GStep S (process_NewBlockTemplate S t).state
  | prover_submit (S : ServerState)
      (posw : ℕ → ℕ → List ℕ → ℕ → ℕ → Bool)
      (to_proof_difficulty : ℕ → Option ℕ)
      (block_hash_crh : ℕ → List ℕ → ℕ)
      (speed_2m speed_1m : ℚ) (id peer_addr block_height nonce proof : ℕ) :
      GStep S (process_ProverSubmit posw to_proof_difficulty block_hash_crh S
        speed_2m speed_1m id peer_addr block_height nonce proof).state

/-- States reachable by guarded handler steps. -/
inductive GReachable : ServerState → Prop where
  | init : GReachable initServer
  | step {S S' : ServerState} : GReachable S → GStep S S' → GReachable S'

/-- Map consistency invariant: a peer is authenticated iff it has a prover
state, and every peer recorded under an address in
`prover_address_connections` has a prover state claiming that address. -/
def MapInv (S : ServerState) : Prop :=
  (∀ p, (S.authenticated_provers p).isSome ↔ (S.prover_states p).isSome) ∧
  (∀ a conns, S.prover_address_connections a = some conns →
    ∀ p ∈ conns, ∃ st, S.prover_states p = some st ∧ st.address = a)

/-- Difficulty lower-bound invariant: every prover's current and next
difficulty is at least 1, and the pool's current and next global difficulty
modifiers are at least 1. -/
def DifficultyInv (S : ServerState) : Prop :=
  (∀ p st, S.prover_states p = some st →
    1 ≤ st.current_difficulty ∧ 1 ≤ st.next_difficulty) ∧
  1 ≤ S.pool_state.current_global_difficulty_modifier ∧
  1 ≤ S.pool_state.next_global_difficulty_modifier

/-- Round trip used by the restoration law: authenticate a peer, then
disconnect it. -/
def authThenDisconnect (S : ServerState) (peer_addr address sender : ℕ) :
    ServerState :=
  process_ProverDisconnected
    (process_ProverAuthenticated S peer_addr address sender).state peer_addr

/-- Concrete header tree used to instantiate theorems. -/
def witnessTree : BlockHeaderTree :=
  { root := [1, 2], hashed_leaves := fun i => [i] }

/-- Concrete block template used to instantiate theorems. -/
def witnessTemplate : BlockTemplate :=
  { block_height := 10, difficulty_target := 1000, previous_block_hash := 5,
    coinbase_value := 7, header_tree := witnessTree }

/-- Concrete prover state used to instantiate theorems. -/
def witnessProver : ProverState := ProverState.new 1 2

/-- Concrete server state (one authenticated prover, a cached template) used
to instantiate theorems. -/
def witnessState : ServerState :=
  { connected_provers := {1},
    authenticated_provers := upd (fun _ => none) 1 (some 3),
    prover_states := upd (fun _ => none) 1 (some witnessProver),
    prover_address_connections := upd (fun _ => none) 2 (some {1}),
    latest_block_height := 10,
    latest_block_template := some witnessTemplate,
    latest_block_template_header_tree := some witnessTree,
    pool_state := PoolState.new,
    nonce_seen := ∅ }

/-- PoSW verifier that accepts everything (instantiation of the external
verifier parameter). -/
def alwaysValidPoSW : ℕ → ℕ → List ℕ → ℕ → ℕ → Bool := fun _ _ _ _ _ => true

/-- PoSW verifier that rejects everything. -/
def neverValidPoSW : ℕ → ℕ → List ℕ → ℕ → ℕ → Bool := fun _ _ _ _ _ => false

/-- Proof-difficulty extractor returning 5 for every proof. -/
def constProofDifficulty : ℕ → Option ℕ := fun _ => some 5

/-- Block-hash CRH instantiation. -/
def zeroCRH : ℕ → List ℕ → ℕ := fun _ _ => 0

/-- State whose `prover_address_connections` maps address 0 to the empty set
(constructible as a value of the state type, though no reachable state has
an empty entry). -/
def emptySetPacState : ServerState :=
  { initServer with
    prover_address_connections := upd (fun _ => none) 0 (some ∅) }

/-- State produced by authenticating peer 7 under address 0 and then again
under address 1 without a disconnection in between. -/
def doubleAuthState : ServerState :=
  (process_ProverAuthenticated
    (process_ProverAuthenticated initServer 7 0 3).state 7 1 3).state

lemma den_le_num_of_one_le {x : ℚ} (h : 1 ≤ x) : (x.den : ℤ) ≤ x.num := by
  have hd : (0 : ℚ) < (x.den : ℚ) := by exact_mod_cast x.den_pos
  have hx : (1 : ℚ) ≤ (x.num : ℚ) / (x.den : ℚ) := by
    rw [Rat.num_div_den]; exact h
  have h2 := (one_le_div hd).mp hx
  exact_mod_cast h2

lemma one_le_U64MAX : 1 ≤ U64MAX := by norm_num [U64MAX]

lemma one_le_f64ToU64 {x : ℚ} (h : 1 ≤ x) : 1 ≤ f64ToU64 x := by
  have hx0 : ¬ x < 0 := not_lt.mpr (le_trans zero_le_one h)
  unfold f64ToU64
  rw [if_neg hx0]
  refine le_min ?_ one_le_U64MAX
  rw [Nat.one_le_div_iff x.den_pos]
  calc x.den = (x.den : ℤ).toNat := rfl
    _ ≤ x.num.toNat := Int.toNat_le_toNat (den_le_num_of_one_le h)

lemma one_le_cast_mul {c : ℕ} {g : ℚ} (hc : 1 ≤ c) (hg : 1 ≤ g) :
    1 ≤ (c : ℚ) * g := by
  have hc' : (1 : ℚ) ≤ (c : ℚ) := by exact_mod_cast hc
  nlinarith

lemma one_le_share_difficulty {st : ProverState} {g : ℚ}
    (hc : 1 ≤ st.current_difficulty) (hg : 1 ≤ g) :
    1 ≤ share_difficulty st g :=
  one_le_f64ToU64 (one_le_cast_mul hc hg)

lemma one_le_fanout_next_difficulty {st : ProverState} {g : ℚ}
    (hn : 1 ≤ st.next_difficulty) (hg : 1 ≤ g) :
    1 ≤ fanout_next_difficulty st g :=
  one_le_f64ToU64 (one_le_cast_mul hn hg)

section SubmitShape

variable (posw : ℕ → ℕ → List ℕ → ℕ → ℕ → Bool)
  (to_proof_difficulty : ℕ → Option ℕ) (block_hash_crh : ℕ → List ℕ → ℕ)
  (S : ServerState) (speed_2m speed_1m : ℚ)
  (id peer_addr block_height nonce proof : ℕ)

lemma submit_authenticated_provers_eq :
    (process_ProverSubmit posw to_proof_difficulty block_hash_crh S speed_2m
      speed_1m id peer_addr block_height nonce proof).state.authenticated_provers
      = S.authenticated_provers := by
  unfold process_ProverSubmit
  dsimp only
  repeat' split
  all_goals rfl

lemma submit_prover_address_connections_eq :
    (process_ProverSubmit posw to_proof_difficulty block_hash_crh S speed_2m
      speed_1m id peer_addr block_height nonce
      proof).state.prover_address_connections
      = S.prover_address_connections := by
  unfold process_ProverSubmit
  dsimp only
  repeat' split
  all_goals rfl

lemma submit_connected_provers_eq :
    (process_ProverSubmit posw to_proof_difficulty block_hash_crh S speed_2m
      speed_1m id peer_addr block_height nonce proof).state.connected_provers
      = S.connected_provers := by
  unfold process_ProverSubmit
  dsimp only
  repeat' split
  all_goals rfl

end SubmitShape

@[simp] lemma upd_same {α : Type} (m : ℕ → Option α) (k : ℕ) (v : Option α) :
    upd m k v k = v := by
  simp [upd]

lemma upd_other {α : Type} (m : ℕ → Option α) {k k' : ℕ} (v : Option α)
    (h : k' ≠ k) : upd m k v k' = m k' := by
  simp [upd, h]

lemma mapInv_initServer : MapInv initServer := by
  constructor
  · intro p; simp [initServer]
  · intro a conns hc; simp [initServer] at hc

lemma diffInv_initServer : DifficultyInv initServer := by
  refine ⟨?_, ?_, ?_⟩
  · intro p st hst; simp [initServer] at hst
  · norm_num [initServer, PoolState.new]
  · norm_num [initServer, PoolState.new]

lemma mapInv_connected {S : ServerState} (p : ℕ) (h : MapInv S) :
    MapInv (process_ProverConnected S p) := h

lemma mapInv_authenticated {S : ServerState} (peer_addr address sender : ℕ)
    (h : MapInv S) (fresh : S.authenticated_provers peer_addr = none) :
    MapInv (process_ProverAuthenticated S peer_addr address sender).state := by
  obtain ⟨h1, h2⟩ := h
  have hnost : S.prover_states peer_addr = none := by
    cases hst : S.prover_states peer_addr with
    | none => rfl
    | some st =>
        have := (h1 peer_addr).mpr (by simp [hst])
        rw [fresh] at this
        simp at this
  constructor
  · intro q
    by_cases hq : q = peer_addr
    · subst hq
      simp [process_ProverAuthenticated, upd]
    · simp only [process_ProverAuthenticated]
      rw [upd_other _ _ hq, upd_other _ _ hq]
      exact h1 q
  · intro a conns hconns q hq
    simp only [process_ProverAuthenticated] at hconns ⊢
    cases hpac : S.prover_address_connections address with
    | some conns0 =>
        simp only [hpac] at hconns
        by_cases ha : a = address
        · subst ha
          rw [upd_same] at hconns
          cases hconns
          rcases Finset.mem_insert.mp hq with hqp | hq0
          · subst hqp
            exact ⟨ProverState.new q a, by simp [upd], rfl⟩
          · obtain ⟨st, hst, haddr⟩ := h2 a conns0 hpac q hq0
            have hqp : q ≠ peer_addr := by
              intro hqe; rw [hqe, hnost] at hst; cases hst
            exact ⟨st, by rw [upd_other _ _ hqp]; exact hst, haddr⟩
        · rw [upd_other _ _ ha] at hconns
          obtain ⟨st, hst, haddr⟩ := h2 a conns hconns q hq
          have hqp : q ≠ peer_addr := by
            intro hqe; rw [hqe, hnost] at hst; cases hst
          exact ⟨st, by rw [upd_other _ _ hqp]; exact hst, haddr⟩
    | none =>
        simp only [hpac] at hconns
        by_cases ha : a = address
        · subst ha
          rw [upd_same] at hconns
          cases hconns
          have hqp := Finset.mem_singleton.mp hq
          subst hqp
          exact ⟨ProverState.new q a, by simp [upd], rfl⟩
        · rw [upd_other _ _ ha] at hconns
          obtain ⟨st, hst, haddr⟩ := h2 a conns hconns q hq
          have hqp : q ≠ peer_addr := by
            intro hqe; rw [hqe, hnost] at hst; cases hst
          exact ⟨st, by rw [upd_other _ _ hqp]; exact hst, haddr⟩

lemma mapInv_disconnected {S : ServerState} (peer_addr : ℕ) (h : MapInv S) :
    MapInv (process_ProverDisconnected S peer_addr) := by
  obtain ⟨h1, h2⟩ := h
  constructor
  · intro q
    by_cases hq : q = peer_addr
    · subst hq
      simp [process_ProverDisconnected, upd]
    · simp only [process_ProverDisconnected]
      rw [upd_other _ _ hq, upd_other _ _ hq]
      exact h1 q
  · intro a conns hconns q hq
    simp only [process_ProverDisconnected] at hconns ⊢
    cases hst0 : S.prover_states peer_addr with
    | none =>
        simp only [hst0] at hconns
        obtain ⟨st, hst, haddr⟩ := h2 a conns hconns q hq
        have hqp : q ≠ peer_addr := by
          intro hqe; rw [hqe, hst0] at hst; cases hst
        exact ⟨st, by rw [upd_other _ _ hqp]; exact hst, haddr⟩
    | some st0 =>
        simp only [hst0] at hconns
        cases hpac : S.prover_address_connections st0.address with
        | none =>
            simp only [hpac] at hconns
            obtain ⟨st, hst, haddr⟩ := h2 a conns hconns q hq
            have hqp : q ≠ peer_addr := by
              intro hqe
              rw [hqe, hst0] at hst
              cases hst
              rw [haddr] at hpac
              rw [hpac] at hconns
              cases hconns
            exact ⟨st, by rw [upd_other _ _ hqp]; exact hst, haddr⟩
        | some conns0 =>
            simp only [hpac] at hconns
            by_cases hemp : conns0.erase peer_addr = ∅
            · rw [if_pos hemp] at hconns
              by_cases ha : a = st0.address
              · subst ha; rw [upd_same] at hconns; cases hconns
              · rw [upd_other _ _ ha] at hconns
                obtain ⟨st, hst, haddr⟩ := h2 a conns hconns q hq
                have hqp : q ≠ peer_addr := by
                  intro hqe
                  rw [hqe, hst0] at hst
                  cases hst
                  exact ha haddr.symm
                exact ⟨st, by rw [upd_other _ _ hqp]; exact hst, haddr⟩
            · rw [if_neg hemp] at hconns
              by_cases ha : a = st0.address
              · subst ha
                rw [upd_same] at hconns
                cases hconns
                have hq' := Finset.mem_erase.mp hq
                obtain ⟨st, hst, haddr⟩ := h2 _ conns0 hpac q hq'.2
                exact ⟨st, by rw [upd_other _ _ hq'.1]; exact hst, haddr⟩
              · rw [upd_other _ _ ha] at hconns
                obtain ⟨st, hst, haddr⟩ := h2 a conns hconns q hq
                have hqp : q ≠ peer_addr := by
                  intro hqe
                  rw [hqe, hst0] at hst
                  cases hst
                  exact ha haddr.symm
                exact ⟨st, by rw [upd_other _ _ hqp]; exact hst, haddr⟩

lemma mapInv_new_block_template {S : ServerState} (t : BlockTemplate)
    (h : MapInv S) : MapInv (process_NewBlockTemplate S t).state := by
  obtain ⟨h1, h2⟩ := h
  constructor
  · intro q
    simp only [process_NewBlockTemplate]
    cases hauth : S.authenticated_provers q with
    | none => simp only [hauth]; rw [← hauth]; exact h1 q
    | some snd =>
        cases hst : S.prover_states q with
        | none => simp only [hauth, hst]; rw [← hauth, ← hst]; exact h1 q
        | some st => simp [hauth, hst]
  · intro a conns hconns q hq
    simp only [process_NewBlockTemplate] at hconns ⊢
    obtain ⟨st, hst, haddr⟩ := h2 a conns hconns q hq
    cases hauth : S.authenticated_provers q with
    | none => exact ⟨st, by simp only [hauth, hst], haddr⟩
    | some snd =>
        refine ⟨(st.promote).1, by simp only [hauth, hst], ?_⟩
        simpa [ProverState.promote] using haddr

lemma mapInv_update_prover {S : ServerState} {peer_addr : ℕ}
    {st' : ProverState} {P : PoolState} {ns : Finset ℕ} (h : MapInv S)
    (hsome : (S.prover_states peer_addr).isSome = true)
    (haddr0 : ∀ st0, S.prover_states peer_addr = some st0 →
      st'.address = st0.address) :
    MapInv { S with
      prover_states := upd S.prover_states peer_addr (some st')
      pool_state := P
      nonce_seen := ns } := by
  obtain ⟨st, hst⟩ := Option.isSome_iff_exists.mp hsome
  have haddr := haddr0 st hst
  obtain ⟨h1, h2⟩ := h
  constructor
  · intro q
    by_cases hq : q = peer_addr
    · subst hq
      have hl : (S.authenticated_provers q).isSome = true :=
        (h1 q).mpr (by simp [hst])
      simp [upd, hl]
    · show (S.authenticated_provers q).isSome ↔
        (upd S.prover_states peer_addr _ q).isSome
      rw [upd_other _ _ hq]
      exact h1 q
  · intro a conns hconns q hq
    obtain ⟨st1, hst1, haddr1⟩ := h2 a conns hconns q hq
    by_cases hqp : q = peer_addr
    · subst hqp
      rw [hst] at hst1
      cases hst1
      exact ⟨st', upd_same _ _ _, haddr.trans haddr1⟩
    · refine ⟨st1, ?_, haddr1⟩
      show upd S.prover_states peer_addr (some st') q = some st1
      rw [upd_other _ _ hqp]
      exact hst1

lemma mapInv_submit {S : ServerState}
    (posw : ℕ → ℕ → List ℕ → ℕ → ℕ → Bool)
    (to_proof_difficulty : ℕ → Option ℕ) (block_hash_crh : ℕ → List ℕ → ℕ)
    (speed_2m speed_1m : ℚ) (id peer_addr block_height nonce proof : ℕ)
    (h : MapInv S) :
    MapInv (process_ProverSubmit posw to_proof_difficulty block_hash_crh S
      speed_2m speed_1m id peer_addr block_height nonce proof).state := by
  unfold process_ProverSubmit
  dsimp only
  repeat' split
  any_goals exact h
  all_goals refine mapInv_update_prover h (by simp [*]) ?_
  all_goals intro st0 hst0
  all_goals simp_all [ProverState.add_share]

lemma diffInv_connected {S : ServerState} (p : ℕ) (h : DifficultyInv S) :
    DifficultyInv (process_ProverConnected S p) := h

lemma diffInv_authenticated {S : ServerState} (peer_addr address sender : ℕ)
    (h : DifficultyInv S) :
    DifficultyInv (process_ProverAuthenticated S peer_addr address sender).state := by
  obtain ⟨h1, h2, h3⟩ := h
  refine ⟨?_, h2, h3⟩
  intro q st hst
  by_cases hq : q = peer_addr
  · subst hq
    rw [show (process_ProverAuthenticated S q address sender).state.prover_states q
        = some (ProverState.new q address) from upd_same _ _ _] at hst
    cases hst
    exact ⟨le_refl 1, le_refl 1⟩
  · rw [show (process_ProverAuthenticated S peer_addr address sender).state.prover_states q
        = S.prover_states q from upd_other _ _ hq] at hst
    exact h1 q st hst

lemma diffInv_disconnected {S : ServerState} (peer_addr : ℕ)
    (h : DifficultyInv S) :
    DifficultyInv (process_ProverDisconnected S peer_addr) := by
  obtain ⟨h1, h2, h3⟩ := h
  refine ⟨?_, h2, h3⟩
  intro q st hst
  by_cases hq : q = peer_addr
  · subst hq
    rw [show (process_ProverDisconnected S q).prover_states q = none from
      upd_same _ _ _] at hst
    cases hst
  · rw [show (process_ProverDisconnected S peer_addr).prover_states q
        = S.prover_states q from upd_other _ _ hq] at hst
    exact h1 q st hst

lemma diffInv_new_block_template {S : ServerState} (t : BlockTemplate)
    (h : DifficultyInv S) :
    DifficultyInv (process_NewBlockTemplate S t).state := by
  obtain ⟨h1, h2, h3⟩ := h
  refine ⟨?_, h3, h3⟩
  intro q st hst
  simp only [process_NewBlockTemplate] at hst
  cases hauth : S.authenticated_provers q with
  | none =>
      simp only [hauth] at hst
      exact h1 q st hst
  | some snd =>
      cases hst0 : S.prover_states q with
      | none =>
          simp only [hauth, hst0] at hst
          cases hst
      | some st0 =>
          simp only [hauth, hst0] at hst
          cases hst
          have := h1 q st0 hst0
          exact ⟨by simpa [ProverState.promote] using this.2,
            by simpa [ProverState.promote] using this.2⟩

lemma diffInv_update_prover {S : ServerState} {peer_addr v v' : ℕ}
    {st : ProverState} {sp2 sp1 : ℚ} {ns : Finset ℕ} (h : DifficultyInv S)
    (hst : S.prover_states peer_addr = some st) :
    DifficultyInv { S with
      prover_states := upd S.prover_states peer_addr (some (st.add_share v sp2))
      pool_state := S.pool_state.add_share v' sp1
      nonce_seen := ns } := by
  obtain ⟨h1, h2, h3⟩ := h
  refine ⟨?_, h2, le_max_right _ _⟩
  intro q st1 hst1
  dsimp only at hst1
  by_cases hq : q = peer_addr
  · subst hq
    rw [upd_same] at hst1
    cases hst1
    have := h1 q _ hst
    exact ⟨by simpa [ProverState.add_share] using this.1, le_max_right _ _⟩
  · rw [upd_other _ _ hq] at hst1
    exact h1 q st1 hst1

lemma diffInv_submit {S : ServerState}
    (posw : ℕ → ℕ → List ℕ → ℕ → ℕ → Bool)
    (to_proof_difficulty : ℕ → Option ℕ) (block_hash_crh : ℕ → List ℕ → ℕ)
    (speed_2m speed_1m : ℚ) (id peer_addr block_height nonce proof : ℕ)
    (h : DifficultyInv S) :
    DifficultyInv (process_ProverSubmit posw to_proof_difficulty block_hash_crh
      S speed_2m speed_1m id peer_addr block_height nonce proof).state := by
  unfold process_ProverSubmit
  dsimp only
  repeat' split
  any_goals exact h
  all_goals refine diffInv_update_prover h ?_
  all_goals assumption

lemma diffInv_step {S S' : ServerState} (h : DifficultyInv S)
    (hs : Step S S') : DifficultyInv S' := by
  cases hs with
  | prover_connected p => exact diffInv_connected p h
  | prover_authenticated p a snd => exact diffInv_authenticated p a snd h
  | prover_disconnected p => exact diffInv_disconnected p h
  | new_block_template t => exact diffInv_new_block_template t h
  | prover_submit posw tpd crh sp2 sp1 id p bh n pr =>
      exact diffInv_submit posw tpd crh sp2 sp1 id p bh n pr h

lemma diffInv_reachable {S : ServerState} (h : Reachable S) :
    DifficultyInv S := by
  induction h with
  | init => exact diffInv_initServer
  | step _ hs ih => exact diffInv_step ih hs

lemma mapInv_gstep {S S' : ServerState} (h : MapInv S) (hs : GStep S S') :
    MapInv S' := by
  cases hs with
  | prover_connected p => exact mapInv_connected p h
  | prover_authenticated p a snd fresh =>
      exact mapInv_authenticated p a snd h fresh
  | prover_disconnected p => exact mapInv_disconnected p h
  | new_block_template t => exact mapInv_new_block_template t h
  | prover_submit posw tpd crh sp2 sp1 id p bh n pr =>
      exact mapInv_submit posw tpd crh sp2 sp1 id p bh n pr h

lemma mapInv_gReachable {S : ServerState} (h : GReachable S) : MapInv S := by
  induction h with
  | init => exact mapInv_initServer
  | step _ hs ih => exact mapInv_gstep ih hs

/-- C3: after any `ProverState.add_share`, `next_difficulty ≥ 1`; after any
`PoolState.add_share`, `next_global_difficulty_modifier ≥ 1`; and in every
reachable server state every prover's current and next difficulty is ≥ 1 and
the pool's current and next global modifiers are ≥ 1 (both start at 1 and
promotion only copies next into current). -/
theorem c3_difficulty_lower_bounds :
    (∀ (st : ProverState) (value : ℕ) (speed_2m : ℚ),
      1 ≤ (st.add_share value speed_2m).next_difficulty) ∧
    (∀ (ps : PoolState) (value : ℕ) (speed_1m : ℚ),
      1 ≤ (ps.add_share value speed_1m).next_global_difficulty_modifier) ∧
    (∀ S : ServerState, Reachable S → DifficultyInv S) := by
  refine ⟨?_, ?_, ?_⟩
  · intro st value speed_2m
    exact le_max_right _ _
  · intro ps value speed_1m
    exact le_max_right _ _
  · intro S h
    exact diffInv_reachable h

/-- Witness for C3: the bounds at concrete inputs, and the invariant at the
initial state (reachable by zero steps). -/
theorem c3_difficulty_lower_bounds_witness :
    1 ≤ ((ProverState.new 1 2).add_share 5 3).next_difficulty ∧
    1 ≤ (PoolState.new.add_share 5 3).next_global_difficulty_modifier ∧
    DifficultyInv initServer :=
  ⟨c3_difficulty_lower_bounds.1 (ProverState.new 1 2) 5 3,
   c3_difficulty_lower_bounds.2.1 PoolState.new 5 3,
   c3_difficulty_lower_bounds.2.2 initServer Reachable.init⟩

/-- C10: under the invariant (`current_difficulty ≥ 1`,
`next_difficulty ≥ 1`, modifier ≥ 1), the share difficulty computed in the
submit path and the scaled promoted difficulty computed in the fan-out path
are both at least 1, hence neither `u64::MAX / share_difficulty` nor
`u64::MAX / next_difficulty` divides by zero. -/
theorem c10_no_division_by_zero (st : ProverState) (modifier : ℚ)
    (hc : 1 ≤ st.current_difficulty) (hn : 1 ≤ st.next_difficulty)
    (hg : 1 ≤ modifier) :
    1 ≤ share_difficulty st modifier ∧ share_difficulty st modifier ≠ 0 ∧
    1 ≤ fanout_next_difficulty st modifier ∧
    fanout_next_difficulty st modifier ≠ 0 := by
  have h1 := one_le_share_difficulty hc hg
  have h2 := one_le_fanout_next_difficulty hn hg
  exact ⟨h1, Nat.pos_iff_ne_zero.mp h1, h2, Nat.pos_iff_ne_zero.mp h2⟩

/-- Witness for C10 at the fresh prover state and modifier 1. -/
theorem c10_no_division_by_zero_witness :
    1 ≤ witnessProver.current_difficulty ∧ 1 ≤ witnessProver.next_difficulty ∧
    (1 : ℚ) ≤ 1 ∧
    (1 ≤ share_difficulty witnessProver 1 ∧
     share_difficulty witnessProver 1 ≠ 0 ∧
     1 ≤ fanout_next_difficulty witnessProver 1 ∧
     fanout_next_difficulty witnessProver 1 ≠ 0) :=
  ⟨le_refl 1, le_refl 1, le_refl 1,
   c10_no_division_by_zero witnessProver 1 (le_refl 1) (le_refl 1) (le_refl 1)⟩

/-- C7: on every `NewBlockTemplate` the accounting channel receives exactly
one message, a `SetN` whose value is `u64::MAX / difficulty_target * 5` in
64-bit arithmetic — the division first, then the multiplication by 5 (modulo
`2 ^ 64`). -/
theorem c7_setN_window (S : ServerState) (t : BlockTemplate) :
    (process_NewBlockTemplate S t).accounting =
      [AccountingMessage.SetN (U64MAX / t.difficulty_target * 5 % 2 ^ 64)] :=
  rfl

/-- C4: during the `NewBlockTemplate` fan-out, every authenticated prover
with a state has its difficulty promoted (`current := next`), and receives
`SetTarget(u64::MAX / next)` — where `next` is the promoted difficulty scaled
by the freshly promoted global modifier and cast to `u64` — if and only if
that `next` differs from the previously read `current_difficulty`; in all
cases it then receives the `Notify` with `clean_jobs = true`. -/
theorem c4_fanout (S : ServerState) (t : BlockTemplate) (peer_addr sender : ℕ)
    (st : ProverState)
    (hauth : S.authenticated_provers peer_addr = some sender)
    (hst : S.prover_states peer_addr = some st) :
    (process_NewBlockTemplate S t).state.prover_states peer_addr =
      some { st with current_difficulty := st.next_difficulty } ∧
    (process_NewBlockTemplate S t).prover_messages peer_addr =
      (if st.current_difficulty ≠ fanout_next_difficulty st
          S.pool_state.next_global_difficulty_modifier then
        [StratumMessage.SetTarget (U64MAX / fanout_next_difficulty st
          S.pool_state.next_global_difficulty_modifier)]
      else []) ++
      [StratumMessage.Notify (hexEncode (u32ToLeBytes t.block_height))
        (hexEncode t.header_tree.root)
        (hexEncode (t.header_tree.hashed_leaves 0))
        (hexEncode (t.header_tree.hashed_leaves 1))
        (hexEncode (t.header_tree.hashed_leaves 2))
        (hexEncode (t.header_tree.hashed_leaves 3)) true] := by
  constructor
  · simp [process_NewBlockTemplate, hauth, hst, ProverState.promote]
  · simp [process_NewBlockTemplate, hauth, hst, fanoutProverMessages,
      notifyOfTree, PoolState.promote]

/-- Witness for C4 at the concrete one-prover state and template. -/
theorem c4_fanout_witness :
    witnessState.authenticated_provers 1 = some 3 ∧
    witnessState.prover_states 1 = some witnessProver ∧
    ((process_NewBlockTemplate witnessState witnessTemplate).state.prover_states 1 =
      some { witnessProver with
        current_difficulty := witnessProver.next_difficulty } ∧
     (process_NewBlockTemplate witnessState witnessTemplate).prover_messages 1 =
      (if witnessProver.current_difficulty ≠ fanout_next_difficulty
          witnessProver witnessState.pool_state.next_global_difficulty_modifier
        then
        [StratumMessage.SetTarget (U64MAX / fanout_next_difficulty witnessProver
          witnessState.pool_state.next_global_difficulty_modifier)]
      else []) ++
      [StratumMessage.Notify
        (hexEncode (u32ToLeBytes witnessTemplate.block_height))
        (hexEncode witnessTemplate.header_tree.root)
        (hexEncode (witnessTemplate.header_tree.hashed_leaves 0))
        (hexEncode (witnessTemplate.header_tree.hashed_leaves 1))
        (hexEncode (witnessTemplate.header_tree.hashed_leaves 2))
        (hexEncode (witnessTemplate.header_tree.hashed_leaves 3)) true]) :=
  ⟨rfl, rfl, c4_fanout witnessState witnessTemplate 1 3 witnessProver rfl rfl⟩

/-- C8: on `ProverAuthenticated` the new prover is first sent
`SetTarget(u64::MAX)`; a `Notify` follows if and only if a header tree is
cached, and that `Notify` carries the hex of the 4-byte little-endian latest
block height as job id, the hex header root, the hex of the first four hashed
leaves, and `clean_jobs = true`. -/
theorem c8_authenticated_messages (S : ServerState)
    (peer_addr address sender : ℕ) :
    ((process_ProverAuthenticated S peer_addr address sender).sent.head? =
      some (StratumMessage.SetTarget U64MAX)) ∧
    (S.latest_block_template_header_tree = none →
      (process_ProverAuthenticated S peer_addr address sender).sent =
        [StratumMessage.SetTarget U64MAX]) ∧
    (∀ tree, S.latest_block_template_header_tree = some tree →
      (process_ProverAuthenticated S peer_addr address sender).sent =
        [StratumMessage.SetTarget U64MAX,
         StratumMessage.Notify (hexEncode (u32ToLeBytes S.latest_block_height))
           (hexEncode tree.root) (hexEncode (tree.hashed_leaves 0))
           (hexEncode (tree.hashed_leaves 1)) (hexEncode (tree.hashed_leaves 2))
           (hexEncode (tree.hashed_leaves 3)) true]) := by
  refine ⟨?_, ?_, ?_⟩
  · cases htree : S.latest_block_template_header_tree with
    | none => simp [process_ProverAuthenticated, htree]
    | some tree => simp [process_ProverAuthenticated, htree]
  · intro htree
    simp [process_ProverAuthenticated, htree]
  · intro tree htree
    simp [process_ProverAuthenticated, htree, notifyOfTree]

/-- Witness for C8 at the concrete state with a cached header tree. -/
theorem c8_authenticated_messages_witness :
    witnessState.latest_block_template_header_tree = some witnessTree ∧
    (process_ProverAuthenticated witnessState 4 6 3).sent =
      [StratumMessage.SetTarget U64MAX,
       StratumMessage.Notify (hexEncode (u32ToLeBytes
           witnessState.latest_block_height))
         (hexEncode witnessTree.root) (hexEncode (witnessTree.hashed_leaves 0))
         (hexEncode (witnessTree.hashed_leaves 1))
         (hexEncode (witnessTree.hashed_leaves 2))
         (hexEncode (witnessTree.hashed_leaves 3)) true] :=
  ⟨rfl, (c8_authenticated_messages witnessState 4 6 3).2.2 witnessTree rfl⟩

/-- C6 counterexample: the claim quantifies over all states reachable by the
message handlers, but nothing stops a peer from being authenticated twice
under two different addresses without disconnecting; after
`ProverAuthenticated(7, 0, 3)` then `ProverAuthenticated(7, 1, 3)` the peer 7
is still listed under address 0 in `prover_address_connections` while
`prover_states[7].address = 1`, violating the second invariant. -/
theorem c6_counterexample : ¬ (∀ S : ServerState, Reachable S → MapInv S) := by
  intro h
  have hreach : Reachable doubleAuthState :=
    Reachable.step
      (Reachable.step Reachable.init
        (Step.prover_authenticated initServer 7 0 3))
      (Step.prover_authenticated _ 7 1 3)
  obtain ⟨h1, h2⟩ := h doubleAuthState hreach
  obtain ⟨st, hst, haddr⟩ := h2 0 {7} (by decide) 7 (by decide)
  rw [show doubleAuthState.prover_states 7 = some (ProverState.new 7 1) from
    rfl] at hst
  cases hst
  simp [ProverState.new] at haddr

/-- C6 (amended): at every state reachable by the message handlers under the
guard that `ProverAuthenticated` is only delivered for peers that are not
already authenticated, a peer is a key of `authenticated_provers` iff it is a
key of `prover_states`, and every peer listed under an address `A` in
`prover_address_connections` has `prover_states[peer].address = A`. -/
theorem c6_map_invariants (S : ServerState) (h : GReachable S) : MapInv S :=
  mapInv_gReachable h

/-- Witness for the amended C6 at the initial state. -/
theorem c6_map_invariants_witness : MapInv initServer :=
  c6_map_invariants initServer GReachable.init

lemma auth_pac_some {S : ServerState} {address : ℕ} {conns : Finset ℕ}
    (peer_addr sender : ℕ)
    (hpc : S.prover_address_connections address = some conns) :
    (process_ProverAuthenticated S peer_addr address sender).state.prover_address_connections
      = upd S.prover_address_connections address
          (some (insert peer_addr conns)) := by
  simp [process_ProverAuthenticated, hpc]

lemma auth_pac_none {S : ServerState} {address : ℕ} (peer_addr sender : ℕ)
    (hpc : S.prover_address_connections address = none) :
    (process_ProverAuthenticated S peer_addr address sender).state.prover_address_connections
      = upd S.prover_address_connections address (some {peer_addr}) := by
  simp [process_ProverAuthenticated, hpc]

lemma disconnect_pac_some {S : ServerState} {peer_addr a : ℕ}
    {st : ProverState} (hst : S.prover_states peer_addr = some st)
    (haddr : st.address = a) {conns : Finset ℕ}
    (hpc : S.prover_address_connections a = some conns) :
    (process_ProverDisconnected S peer_addr).prover_address_connections
      = if conns.erase peer_addr = ∅ then
          upd S.prover_address_connections a none
        else
          upd S.prover_address_connections a (some (conns.erase peer_addr)) := by
  subst haddr
  simp only [process_ProverDisconnected, hst, hpc]

lemma disconnect_pac_none {S : ServerState} {peer_addr a : ℕ}
    {st : ProverState} (hst : S.prover_states peer_addr = some st)
    (haddr : st.address = a)
    (hpc : S.prover_address_connections a = none) :
    (process_ProverDisconnected S peer_addr).prover_address_connections
      = S.prover_address_connections := by
  subst haddr
  simp only [process_ProverDisconnected, hst, hpc]

lemma roundtrip_connected (S : ServerState) (peer_addr address sender : ℕ)
    (hconn : peer_addr ∉ S.connected_provers) :
    (authThenDisconnect S peer_addr address sender).connected_provers
      = S.connected_provers := by
  show S.connected_provers.erase peer_addr = S.connected_provers
  exact Finset.erase_eq_of_not_mem hconn

lemma roundtrip_authenticated_provers (S : ServerState)
    (peer_addr address sender : ℕ)
    (hauth : S.authenticated_provers peer_addr = none) :
    (authThenDisconnect S peer_addr address sender).authenticated_provers
      = S.authenticated_provers := by
  funext q
  show upd (upd S.authenticated_provers peer_addr (some sender))
    peer_addr none q = S.authenticated_provers q
  by_cases hq : q = peer_addr
  · subst hq
    rw [upd_same, hauth]
  · rw [upd_other _ _ hq, upd_other _ _ hq]

lemma roundtrip_prover_states (S : ServerState)
    (peer_addr address sender : ℕ)
    (hst : S.prover_states peer_addr = none) :
    (authThenDisconnect S peer_addr address sender).prover_states
      = S.prover_states := by
  funext q
  show upd (upd S.prover_states peer_addr
    (some (ProverState.new peer_addr address))) peer_addr none q
    = S.prover_states q
  by_cases hq : q = peer_addr
  · subst hq
    rw [upd_same, hst]
  · rw [upd_other _ _ hq, upd_other _ _ hq]

lemma roundtrip_pac (S : ServerState) (peer_addr address sender : ℕ)
    (hfresh : ∀ a conns, S.prover_address_connections a = some conns →
      peer_addr ∉ conns)
    (hne : ∀ conns, S.prover_address_connections address = some conns →
      conns ≠ ∅) :
    (authThenDisconnect S peer_addr address sender).prover_address_connections
      = S.prover_address_connections := by
  have hstA : (process_ProverAuthenticated S peer_addr address sender).state.prover_states peer_addr
      = some (ProverState.new peer_addr address) := upd_same _ _ _
  show (process_ProverDisconnected (process_ProverAuthenticated S peer_addr address sender).state peer_addr).prover_address_connections
      = S.prover_address_connections
  cases hpc : S.prover_address_connections address with
  | some conns =>
      have hpacA := auth_pac_some peer_addr sender hpc
      have hpcA : (process_ProverAuthenticated S peer_addr address sender).state.prover_address_connections address
          = some (insert peer_addr conns) := by
        rw [hpacA]
        exact upd_same _ _ _
      have haddr : (ProverState.new peer_addr address).address = address := rfl
      rw [disconnect_pac_some hstA haddr hpcA,
        Finset.erase_insert (hfresh address conns hpc),
        if_neg (hne conns hpc), hpacA]
      funext a'
      by_cases ha : a' = address
      · subst ha
        rw [upd_same, hpc]
      · rw [upd_other _ _ ha, upd_other _ _ ha]
  | none =>
      have hpacA := auth_pac_none peer_addr sender hpc
      have hpcA : (process_ProverAuthenticated S peer_addr address sender).state.prover_address_connections address
          = some {peer_addr} := by
        rw [hpacA]
        exact upd_same _ _ _
      have haddr : (ProverState.new peer_addr address).address = address := rfl
      rw [disconnect_pac_some hstA haddr hpcA, Finset.erase_singleton,
        if_pos rfl, hpacA]
      funext a'
      by_cases ha : a' = address
      · subst ha
        rw [upd_same, hpc]
      · rw [upd_other _ _ ha, upd_other _ _ ha]

/-- C5 counterexample: the claim fails on a state whose
`prover_address_connections` maps the authenticated address to the empty set
(a constructible value of the state type): authenticate-then-disconnect of a
fresh peer removes that key instead of restoring `some ∅`. -/
theorem c5_counterexample :
    (1 ∉ emptySetPacState.connected_provers) ∧
    emptySetPacState.authenticated_provers 1 = none ∧
    emptySetPacState.prover_states 1 = none ∧
    (∀ a conns, emptySetPacState.prover_address_connections a = some conns →
      1 ∉ conns) ∧
    (authThenDisconnect emptySetPacState 1 0 3).prover_address_connections 0
      ≠ emptySetPacState.prover_address_connections 0 := by
  refine ⟨by decide, rfl, rfl, ?_, by decide⟩
  intro a conns h
  by_cases ha : a = 0
  · subst ha
    rw [show emptySetPacState.prover_address_connections 0 = some ∅ from
      rfl] at h
    cases h
    exact Finset.not_mem_empty 1
  · have hnone : emptySetPacState.prover_address_connections a = none := by
      show upd (fun _ => none) 0 (some ∅) a = none
      rw [upd_other _ _ ha]
    rw [hnone] at h
    cases h

/-- C5 (amended): for every state `S` whose entry for the authenticated
address in `prover_address_connections`, if present, is nonempty (as in every
reachable state — the disconnect handler drops a key as soon as its set
becomes empty), and every peer not present in any of the maps of `S`,
handling `ProverAuthenticated(p, a, s)` and then `ProverDisconnected(p)`
returns `connected_provers`, `authenticated_provers`, `prover_states` and
`prover_address_connections` to exactly their state in `S`. The nonemptiness
proviso is forced by the counterexample. -/
theorem c5_auth_disconnect_roundtrip (S : ServerState)
    (peer_addr address sender : ℕ)
    (hconn : peer_addr ∉ S.connected_provers)
    (hauth : S.authenticated_provers peer_addr = none)
    (hst : S.prover_states peer_addr = none)
    (hfresh : ∀ a conns, S.prover_address_connections a = some conns →
      peer_addr ∉ conns)
    (hne : ∀ conns, S.prover_address_connections address = some conns →
      conns ≠ ∅) :
    (authThenDisconnect S peer_addr address sender).connected_provers
      = S.connected_provers ∧
    (authThenDisconnect S peer_addr address sender).authenticated_provers
      = S.authenticated_provers ∧
    (authThenDisconnect S peer_addr address sender).prover_states
      = S.prover_states ∧
    (authThenDisconnect S peer_addr address sender).prover_address_connections
      = S.prover_address_connections :=
  ⟨roundtrip_connected S peer_addr address sender hconn,
   roundtrip_authenticated_provers S peer_addr address sender hauth,
   roundtrip_prover_states S peer_addr address sender hst,
   roundtrip_pac S peer_addr address sender hfresh hne⟩

/-- Witness for the amended C5: peer 5 authenticates under address 2 (whose
entry `{1}` is nonempty) on the concrete one-prover state and disconnects. -/
theorem c5_auth_disconnect_roundtrip_witness :
    (5 ∉ witnessState.connected_provers) ∧
    witnessState.authenticated_provers 5 = none ∧
    witnessState.prover_states 5 = none ∧
    ((authThenDisconnect witnessState 5 2 3).connected_provers
      = witnessState.connected_provers ∧
     (authThenDisconnect witnessState 5 2 3).authenticated_provers
      = witnessState.authenticated_provers ∧
     (authThenDisconnect witnessState 5 2 3).prover_states
      = witnessState.prover_states ∧
     (authThenDisconnect witnessState 5 2 3).prover_address_connections
      = witnessState.prover_address_connections) := by
  refine ⟨by decide, rfl, rfl,
    c5_auth_disconnect_roundtrip witnessState 5 2 3 (by decide) rfl rfl ?_ ?_⟩
  · intro a conns h
    by_cases ha : a = 2
    · subst ha
      rw [show witnessState.prover_address_connections 2 = some {1} from
        rfl] at h
      cases h
      decide
    · have hnone : witnessState.prover_address_connections a = none := by
        show upd (fun _ => none) 2 (some {1}) a = none
        rw [upd_other _ _ ha]
      rw [hnone] at h
      cases h
  · intro conns h
    rw [show witnessState.prover_address_connections 2 = some {1} from
      rfl] at h
    cases h
    decide

/-- C1: every share the `ProverSubmit` handler accepts — the prover receives
`Response(id, Bool(true))` — satisfies `proof_difficulty ≤ u64::MAX /
share_difficulty`, where `share_difficulty` is the prover's current (not the
pending next) difficulty times the current global difficulty modifier cast to
`u64`, and the PoSW verification of (block height, share target,
[header root, nonce], proof) returned true; the height also matched the
latest block height. -/
theorem c1_accepted_share
    (posw : ℕ → ℕ → List ℕ → ℕ → ℕ → Bool)
    (to_proof_difficulty : ℕ → Option ℕ) (block_hash_crh : ℕ → List ℕ → ℕ)
    (S : ServerState) (speed_2m speed_1m : ℚ)
    (id peer_addr block_height nonce proof : ℕ)
    (st : ProverState) (t : BlockTemplate)
    (hst : S.prover_states peer_addr = some st)
    (htmpl : S.latest_block_template = some t)
    (hacc : (process_ProverSubmit posw to_proof_difficulty block_hash_crh S
      speed_2m speed_1m id peer_addr block_height nonce proof).response
      = some (okResponse id)) :
    block_height = S.latest_block_height ∧
    ∃ proof_difficulty, to_proof_difficulty proof = some proof_difficulty ∧
      proof_difficulty ≤ U64MAX / share_difficulty st
        S.pool_state.current_global_difficulty_modifier ∧
      posw block_height (U64MAX / share_difficulty st
          S.pool_state.current_global_difficulty_modifier)
        t.header_tree.root nonce proof = true := by
  unfold process_ProverSubmit at hacc
  dsimp only at hacc
  cases hau : S.authenticated_provers peer_addr with
  | none =>
      simp only [hau] at hacc
      simp [okResponse] at hacc
  | some snd =>
      simp only [hau, hst, htmpl] at hacc
      by_cases hbh : block_height ≠ S.latest_block_height
      · rw [if_pos hbh] at hacc
        simp [errResponse, okResponse] at hacc
      · rw [if_neg hbh] at hacc
        by_cases hdup : (seen_nonce S.nonce_seen nonce).1 = true
        · rw [if_pos hdup] at hacc
          simp [errResponse, okResponse] at hacc
        · rw [if_neg hdup] at hacc
          cases htpd : to_proof_difficulty proof with
          | none =>
              simp only [htpd] at hacc
              simp [errResponse, okResponse] at hacc
          | some pd =>
              simp only [htpd] at hacc
              by_cases hgt : pd > U64MAX / share_difficulty st
                  S.pool_state.current_global_difficulty_modifier
              · rw [if_pos hgt] at hacc
                simp [errResponse, okResponse] at hacc
              · rw [if_neg hgt] at hacc
                by_cases hposw : posw block_height
                    (U64MAX / share_difficulty st
                      S.pool_state.current_global_difficulty_modifier)
                    t.header_tree.root nonce proof = true
                · exact ⟨not_ne_iff.mp hbh, pd, rfl, not_lt.mp hgt, hposw⟩
                · rw [if_pos hposw] at hacc
                  simp [errResponse, okResponse] at hacc

/-- Witness for C1: a concrete accepted share on the one-prover state (share
difficulty 1, share target `u64::MAX`, proof difficulty 5, verifier
accepting). -/
theorem c1_accepted_share_witness :
    witnessState.prover_states 1 = some witnessProver ∧
    witnessState.latest_block_template = some witnessTemplate ∧
    (process_ProverSubmit alwaysValidPoSW constProofDifficulty zeroCRH
      witnessState 0 0 9 1 10 4 0).response = some (okResponse 9) ∧
    (10 = witnessState.latest_block_height ∧
     ∃ proof_difficulty, constProofDifficulty 0 = some proof_difficulty ∧
       proof_difficulty ≤ U64MAX / share_difficulty witnessProver
         witnessState.pool_state.current_global_difficulty_modifier ∧
       alwaysValidPoSW 10 (U64MAX / share_difficulty witnessProver
           witnessState.pool_state.current_global_difficulty_modifier)
         witnessTemplate.header_tree.root 4 0 = true) := by
  have hacc : (process_ProverSubmit alwaysValidPoSW constProofDifficulty
      zeroCRH witnessState 0 0 9 1 10 4 0).response = some (okResponse 9) := by
    norm_num [process_ProverSubmit, witnessState, witnessProver,
      witnessTemplate, witnessTree, upd, seen_nonce, share_difficulty,
      f64ToU64, ProverState.new, PoolState.new, okResponse, alwaysValidPoSW,
      constProofDifficulty, zeroCRH, U64MAX]
  exact ⟨rfl, rfl, hacc, c1_accepted_share alwaysValidPoSW
    constProofDifficulty zeroCRH witnessState 0 0 9 1 10 4 0 witnessProver
    witnessTemplate rfl rfl hacc⟩

/-- C2: the `ProverSubmit` validation pipeline checks its steps in order and
answers each failing step with exactly the stated Stratum code and message:
missing outbound sender → silent drop (no response); unknown prover state →
code 24; no cached template → 21 "No block template"; stale height → 21
"Stale proof"; duplicate nonce → 22 "Duplicate nonce"; no proof difficulty →
23 "No difficulty"; target not met → 23 "Difficulty target not met"; invalid
PoSW → 26 "Invalid proof". -/
theorem c2_pipeline_error_responses
    (posw : ℕ → ℕ → List ℕ → ℕ → ℕ → Bool)
    (to_proof_difficulty : ℕ → Option ℕ) (block_hash_crh : ℕ → List ℕ → ℕ)
    (S : ServerState) (speed_2m speed_1m : ℚ)
    (id peer_addr block_height nonce proof : ℕ) :
    (S.authenticated_provers peer_addr = none →
      (process_ProverSubmit posw to_proof_difficulty block_hash_crh S speed_2m
        speed_1m id peer_addr block_height nonce proof).response = none) ∧
    (S.authenticated_provers peer_addr ≠ none →
      S.prover_states peer_addr = none →
      (process_ProverSubmit posw to_proof_difficulty block_hash_crh S speed_2m
        speed_1m id peer_addr block_height nonce proof).response
        = some (errResponse id 24 "Unknown prover")) ∧
    (S.authenticated_provers peer_addr ≠ none →
      S.prover_states peer_addr ≠ none →
      S.latest_block_template = none →
      (process_ProverSubmit posw to_proof_difficulty block_hash_crh S speed_2m
        speed_1m id peer_addr block_height nonce proof).response
        = some (errResponse id 21 "No block template")) ∧
    (S.authenticated_provers peer_addr ≠ none →
      S.prover_states peer_addr ≠ none →
      S.latest_block_template ≠ none →
      block_height ≠ S.latest_block_height →
      (process_ProverSubmit posw to_proof_difficulty block_hash_crh S speed_2m
        speed_1m id peer_addr block_height nonce proof).response
        = some (errResponse id 21 "Stale proof")) ∧
    (S.authenticated_provers peer_addr ≠ none →
      S.prover_states peer_addr ≠ none →
      S.latest_block_template ≠ none →
      block_height = S.latest_block_height →
      nonce ∈ S.nonce_seen →
      (process_ProverSubmit posw to_proof_difficulty block_hash_crh S speed_2m
        speed_1m id peer_addr block_height nonce proof).response
        = some (errResponse id 22 "Duplicate nonce")) ∧
    (S.authenticated_provers peer_addr ≠ none →
      S.prover_states peer_addr ≠ none →
      S.latest_block_template ≠ none →
      block_height = S.latest_block_height →
      nonce ∉ S.nonce_seen →
      to_proof_difficulty proof = none →
      (process_ProverSubmit posw to_proof_difficulty block_hash_crh S speed_2m
        speed_1m id peer_addr block_height nonce proof).response
        = some (errResponse id 23 "No difficulty")) ∧
    (∀ st proof_difficulty, S.authenticated_provers peer_addr ≠ none →
      S.prover_states peer_addr = some st →
      S.latest_block_template ≠ none →
      block_height = S.latest_block_height →
      nonce ∉ S.nonce_seen →
      to_proof_difficulty proof = some proof_difficulty →
      U64MAX / share_difficulty st
        S.pool_state.current_global_difficulty_modifier < proof_difficulty →
      (process_ProverSubmit posw to_proof_difficulty block_hash_crh S speed_2m
        speed_1m id peer_addr block_height nonce proof).response
        = some (errResponse id 23 "Difficulty target not met")) ∧
    (∀ st t proof_difficulty, S.authenticated_provers peer_addr ≠ none →
      S.prover_states peer_addr = some st →
      S.latest_block_template = some t →
      block_height = S.latest_block_height →
      nonce ∉ S.nonce_seen →
      to_proof_difficulty proof = some proof_difficulty →
      proof_difficulty ≤ U64MAX / share_difficulty st
        S.pool_state.current_global_difficulty_modifier →
      posw block_height (U64MAX / share_difficulty st
          S.pool_state.current_global_difficulty_modifier)
        t.header_tree.root nonce proof = false →
      (process_ProverSubmit posw to_proof_difficulty block_hash_crh S speed_2m
        speed_1m id peer_addr block_height nonce proof).response
        = some (errResponse id 26 "Invalid proof")) := by
  refine ⟨?_, ?_, ?_, ?_, ?_, ?_, ?_, ?_⟩
  · intro h1
    simp [process_ProverSubmit, h1]
  · intro h1 h2
    obtain ⟨snd, hsnd⟩ := Option.ne_none_iff_exists'.mp h1
    simp [process_ProverSubmit, hsnd, h2]
  · intro h1 h2 h3
    obtain ⟨snd, hsnd⟩ := Option.ne_none_iff_exists'.mp h1
    obtain ⟨st, hst⟩ := Option.ne_none_iff_exists'.mp h2
    simp [process_ProverSubmit, hsnd, hst, h3]
  · intro h1 h2 h3 h4
    obtain ⟨snd, hsnd⟩ := Option.ne_none_iff_exists'.mp h1
    obtain ⟨st, hst⟩ := Option.ne_none_iff_exists'.mp h2
    obtain ⟨t, ht⟩ := Option.ne_none_iff_exists'.mp h3
    simp [process_ProverSubmit, hsnd, hst, ht, h4]
  · intro h1 h2 h3 h4 h5
    obtain ⟨snd, hsnd⟩ := Option.ne_none_iff_exists'.mp h1
    obtain ⟨st, hst⟩ := Option.ne_none_iff_exists'.mp h2
    obtain ⟨t, ht⟩ := Option.ne_none_iff_exists'.mp h3
    simp [process_ProverSubmit, hsnd, hst, ht, h4, seen_nonce, h5]
  · intro h1 h2 h3 h4 h5 h6
    obtain ⟨snd, hsnd⟩ := Option.ne_none_iff_exists'.mp h1
    obtain ⟨st, hst⟩ := Option.ne_none_iff_exists'.mp h2
    obtain ⟨t, ht⟩ := Option.ne_none_iff_exists'.mp h3
    simp [process_ProverSubmit, hsnd, hst, ht, h4, seen_nonce, h5, h6]
  · intro st proof_difficulty h1 hst h3 h4 h5 h6 h7
    obtain ⟨snd, hsnd⟩ := Option.ne_none_iff_exists'.mp h1
    obtain ⟨t, ht⟩ := Option.ne_none_iff_exists'.mp h3
    simp [process_ProverSubmit, hsnd, hst, ht, h4, seen_nonce, h5, h6, h7]
  · intro st t proof_difficulty h1 hst ht h4 h5 h6 h7 h8
    obtain ⟨snd, hsnd⟩ := Option.ne_none_iff_exists'.mp h1
    have h7' : ¬ (U64MAX / share_difficulty st
        S.pool_state.current_global_difficulty_modifier
        < proof_difficulty) := not_lt.mpr h7
    rw [h4] at h8
    simp [process_ProverSubmit, hsnd, hst, ht, h4, seen_nonce, h5, h6, h7',
      h8]

/-- Witness for C2: the invalid-PoSW step on the concrete one-prover state
with the all-rejecting verifier yields exactly code 26 "Invalid proof". -/
theorem c2_pipeline_error_responses_witness :
    witnessState.prover_states 1 = some witnessProver ∧
    witnessState.latest_block_template = some witnessTemplate ∧
    (process_ProverSubmit neverValidPoSW constProofDifficulty zeroCRH
      witnessState 0 0 9 1 10 4 0).response
      = some (errResponse 9 26 "Invalid proof") := by
  refine ⟨rfl, rfl, ?_⟩
  refine (c2_pipeline_error_responses neverValidPoSW constProofDifficulty
    zeroCRH witnessState 0 0 9 1 10 4 0).2.2.2.2.2.2.2 witnessProver
    witnessTemplate 5 (by simp [witnessState, upd]) rfl rfl rfl (by decide)
    rfl ?_ rfl
  norm_num [share_difficulty, witnessState, witnessProver, ProverState.new,
    PoolState.new, f64ToU64, U64MAX]

/-- C9: a submit that passes the sender, prover-state, template and height
checks inserts its nonce into `nonce_seen` before the difficulty and PoSW
steps run (so the nonce is present afterwards whatever the outcome); any
submit over a state already containing the nonce — by any prover, with any
request id — that passes those earlier checks is rejected with 22 "Duplicate
nonce"; a submit failing one of the earlier checks leaves `nonce_seen`
unchanged; and after the 60-second purge clears the set the nonce is no
longer seen. -/
theorem c9_nonce_insertion
    (posw : ℕ → ℕ → List ℕ → ℕ → ℕ → Bool)
    (to_proof_difficulty : ℕ → Option ℕ) (block_hash_crh : ℕ → List ℕ → ℕ)
    (S S' : ServerState) (speed_2m speed_1m : ℚ)
    (id peer_addr block_height nonce proof id2 peer_addr2 block_height2 :
      ℕ) :
    (S.authenticated_provers peer_addr ≠ none →
      S.prover_states peer_addr ≠ none →
      S.latest_block_template ≠ none →
      block_height = S.latest_block_height →
      nonce ∈ (process_ProverSubmit posw to_proof_difficulty block_hash_crh S
        speed_2m speed_1m id peer_addr block_height nonce
        proof).state.nonce_seen) ∧
    (nonce ∈ S'.nonce_seen →
      S'.authenticated_provers peer_addr2 ≠ none →
      S'.prover_states peer_addr2 ≠ none →
      S'.latest_block_template ≠ none →
      block_height2 = S'.latest_block_height →
      (process_ProverSubmit posw to_proof_difficulty block_hash_crh S'
        speed_2m speed_1m id2 peer_addr2 block_height2 nonce proof).response
        = some (errResponse id2 22 "Duplicate nonce")) ∧
    (S.authenticated_provers peer_addr = none ∨
      S.prover_states peer_addr = none ∨
      S.latest_block_template = none ∨
      block_height ≠ S.latest_block_height →
      (process_ProverSubmit posw to_proof_difficulty block_hash_crh S speed_2m
        speed_1m id peer_addr block_height nonce proof).state.nonce_seen
        = S.nonce_seen) ∧
    ((seen_nonce (∅ : Finset ℕ) nonce).1 = false) := by
  refine ⟨?_, ?_, ?_, by simp [seen_nonce]⟩
  · intro h1 h2 h3 h4
    obtain ⟨snd, hsnd⟩ := Option.ne_none_iff_exists'.mp h1
    obtain ⟨st, hst⟩ := Option.ne_none_iff_exists'.mp h2
    obtain ⟨t, ht⟩ := Option.ne_none_iff_exists'.mp h3
    unfold process_ProverSubmit
    dsimp only
    simp only [hsnd, hst, ht]
    rw [if_neg (not_ne_iff.mpr h4)]
    repeat' split
    all_goals
      exact Finset.mem_insert_self nonce S.nonce_seen
  · intro hdup h1 h2 h3 h4
    obtain ⟨snd, hsnd⟩ := Option.ne_none_iff_exists'.mp h1
    obtain ⟨st, hst⟩ := Option.ne_none_iff_exists'.mp h2
    obtain ⟨t, ht⟩ := Option.ne_none_iff_exists'.mp h3
    simp [process_ProverSubmit, hsnd, hst, ht, h4, seen_nonce, hdup]
  · intro h
    rcases h with h | h | h | h
    · simp [process_ProverSubmit, h]
    · cases hau : S.authenticated_provers peer_addr with
      | none => simp [process_ProverSubmit, hau]
      | some snd => simp [process_ProverSubmit, hau, h]
    · cases hau : S.authenticated_provers peer_addr with
      | none => simp [process_ProverSubmit, hau]
      | some snd =>
          cases hst : S.prover_states peer_addr with
          | none => simp [process_ProverSubmit, hau, hst]
          | some st => simp [process_ProverSubmit, hau, hst, h]
    · cases hau : S.authenticated_provers peer_addr with
      | none => simp [process_ProverSubmit, hau]
      | some snd =>
          cases hst : S.prover_states peer_addr with
          | none => simp [process_ProverSubmit, hau, hst]
          | some st =>
              cases ht : S.latest_block_template with
              | none => simp [process_ProverSubmit, hau, hst, ht]
              | some t => simp [process_ProverSubmit, hau, hst, ht, h]

/-- Witness for C9: submitting nonce 4 on the concrete state inserts it;
resubmitting nonce 4 (other prover, other id) on a state that has seen it is
rejected with 22; a stale submit leaves the set unchanged; the purged set no
longer sees nonce 4. -/
theorem c9_nonce_insertion_witness :
    (4 ∈ (process_ProverSubmit alwaysValidPoSW constProofDifficulty zeroCRH
      witnessState 0 0 9 1 10 4 0).state.nonce_seen) ∧
    ((process_ProverSubmit alwaysValidPoSW constProofDifficulty zeroCRH
      { witnessState with nonce_seen := {4} } 0 0 11 1 10 4 0).response
      = some (errResponse 11 22 "Duplicate nonce")) ∧
    ((process_ProverSubmit alwaysValidPoSW constProofDifficulty zeroCRH
      witnessState 0 0 9 1 3 4 0).state.nonce_seen
      = witnessState.nonce_seen) ∧
    ((seen_nonce (∅ : Finset ℕ) 4).1 = false) := by
  refine ⟨?_, ?_, ?_, ?_⟩
  · exact (c9_nonce_insertion alwaysValidPoSW constProofDifficulty zeroCRH
      witnessState witnessState 0 0 9 1 10 4 0 11 1 10).1
      (by simp [witnessState, upd]) (by simp [witnessState, upd])
      (by simp [witnessState]) rfl
  · exact (c9_nonce_insertion alwaysValidPoSW constProofDifficulty zeroCRH
      witnessState { witnessState with nonce_seen := {4} } 0 0 9 1 10 4 0 11
      1 10).2.1 (by decide) (by simp [witnessState, upd])
      (by simp [witnessState, upd]) (by simp [witnessState]) rfl
  · exact (c9_nonce_insertion alwaysValidPoSW constProofDifficulty zeroCRH
      witnessState witnessState 0 0 9 1 3 4 0 11 1 10).2.2.1
      (Or.inr (Or.inr (Or.inr (by decide))))
  · exact (c9_nonce_insertion alwaysValidPoSW constProofDifficulty zeroCRH
      witnessState witnessState 0 0 9 1 10 4 0 11 1 10).2.2.2

end PoolServer
